import Mathlib

/-!
Shallow embedding of `src/src/FullSystem/ImmaturePoint.cpp` (DSO immature-point
tracing core).  Real-valued float variables are modelled as exact rationals
extended with explicit non-finite values (`FP`), because several code paths
branch on `std::isfinite` and store non-finite results.  External collaborators
that are not part of the repository snapshot (image samplers, `sqrtf`, the
projection helpers from `ResidualProjections.h`, the global settings from
`settings.cpp`) are modelled as explicit parameters or spec-modelled
definitions, as noted on each definition.
-/

namespace DSO

/-- A C `float`/`double` value, modelled as an exact rational extended with the
IEEE non-finite values: `nan`, `inf true` (+infinity) and `inf false`
(-infinity).  Rounding is idealised (exact rational arithmetic); the
non-finite propagation and comparison semantics follow IEEE-754, which is what
the code's `std::isfinite` checks and comparisons depend on. -/
inductive FP where
  | nan : FP
  | inf : Bool → FP
  | fin : ℚ → FP
deriving DecidableEq, Repr

/-- IEEE addition on `FP` (`+inf + -inf = nan`, `nan` propagates). -/
def FP.add : FP → FP → FP
  | FP.nan, _ => FP.nan
  | _, FP.nan => FP.nan
  | FP.inf s, FP.inf t => if s = t then FP.inf s else FP.nan
  | FP.inf s, FP.fin _ => FP.inf s
  | FP.fin _, FP.inf t => FP.inf t
  | FP.fin a, FP.fin b => FP.fin (a + b)

/-- IEEE negation on `FP`. -/
def FP.neg : FP → FP
  | FP.nan => FP.nan
  | FP.inf s => FP.inf (!s)
  | FP.fin a => FP.fin (-a)

/-- IEEE subtraction on `FP`. -/
def FP.sub (a b : FP) : FP := FP.add a (FP.neg b)

/-- IEEE multiplication on `FP` (`0 * inf = nan`, signs as usual). -/
def FP.mul : FP → FP → FP
  | FP.nan, _ => FP.nan
  | _, FP.nan => FP.nan
  | FP.inf s, FP.inf t => FP.inf (s == t)
  | FP.inf s, FP.fin a => if a = 0 then FP.nan else if 0 < a then FP.inf s else FP.inf (!s)
  | FP.fin a, FP.inf t => if a = 0 then FP.nan else if 0 < a then FP.inf t else FP.inf (!t)
  | FP.fin a, FP.fin b => FP.fin (a * b)

/-- IEEE division on `FP`.  The unsigned rational zero is treated as `+0`,
so `a / 0` is `+inf` for `a > 0`, `-inf` for `a < 0` and `nan` for `a = 0`. -/
def FP.div : FP → FP → FP
  | FP.nan, _ => FP.nan
  | _, FP.nan => FP.nan
  | FP.inf _, FP.inf _ => FP.nan
  | FP.inf s, FP.fin a => if 0 ≤ a then FP.inf s else FP.inf (!s)
  | FP.fin _, FP.inf _ => FP.fin 0
  | FP.fin a, FP.fin b =>
      if b = 0 then (if a = 0 then FP.nan else if 0 < a then FP.inf true else FP.inf false)
      else FP.fin (a / b)

/-- IEEE `<` comparison: any comparison with `nan` is false. -/
def FP.lt : FP → FP → Bool
  | FP.nan, _ => false
  | _, FP.nan => false
  | FP.inf s, FP.inf t => !s && t
  | FP.inf s, FP.fin _ => !s
  | FP.fin _, FP.inf t => t
  | FP.fin a, FP.fin b => decide (a < b)

/-- IEEE `<=` comparison: any comparison with `nan` is false. -/
def FP.le : FP → FP → Bool
  | FP.nan, _ => false
  | _, FP.nan => false
  | a, b => a == b || FP.lt a b

/-- `std::isfinite`. -/
def FP.isFinite : FP → Bool
  | FP.fin _ => true
  | _ => false

/-- `sqrtf`, parameterised by the external libm square-root `rsqrt` on
nonnegative rationals (libm is not part of the repository sources; theorems
hold for every `rsqrt`, hypothesising only what they need of it).  Negative
arguments give `nan`, `sqrt(+inf) = +inf`, as in IEEE. -/
def FP.sqrt (rsqrt : ℚ → ℚ) : FP → FP
  | FP.nan => FP.nan
  | FP.inf s => if s then FP.inf true else FP.nan
  | FP.fin q => if q < 0 then FP.nan else FP.fin (rsqrt q)

/-- `floorf` on `FP` (non-finite values pass through, as in IEEE). -/
def FP.floorF : FP → FP
  | FP.fin q => FP.fin ((Int.floor q : ℤ) : ℚ)
  | x => x

/-- The C cast `(int)x`: truncation toward zero for finite values.  The cast
of a non-finite float is undefined behaviour in C; it is modelled as 0. -/
def FP.truncInt : FP → ℤ
  | FP.fin q => if q < 0 then Int.ceil q else Int.floor q
  | _ => 0

/-- 3-vector of (finite) rationals, `Vec3f` with finite entries. -/
structure Vec3 where
  x : ℚ
  y : ℚ
  z : ℚ
deriving DecidableEq, Repr

/-- 3x3 matrix of (finite) rationals, `Mat33f` with finite entries. -/
structure Mat33 where
  a00 : ℚ
  a01 : ℚ
  a02 : ℚ
  a10 : ℚ
  a11 : ℚ
  a12 : ℚ
  a20 : ℚ
  a21 : ℚ
  a22 : ℚ
deriving DecidableEq, Repr

/-- Matrix-vector product. -/
def Mat33.mulVec (M : Mat33) (v : Vec3) : Vec3 :=
  ⟨M.a00 * v.x + M.a01 * v.y + M.a02 * v.z,
   M.a10 * v.x + M.a11 * v.y + M.a12 * v.z,
   M.a20 * v.x + M.a21 * v.y + M.a22 * v.z⟩

/-- `a + t * s` componentwise (used for `pr + Kt * idepth` when `idepth` is a
finite rational). -/
def Vec3.addScaled (a : Vec3) (t : Vec3) (s : ℚ) : Vec3 :=
  ⟨a.x + t.x * s, a.y + t.y * s, a.z + t.z * s⟩

/-- Global configuration constants (from `settings.cpp`, which is not part of
the repository snapshot; modelled as explicit parameters).  `wG`/`hG` are the
image dimensions `wG[0]`/`hG[0]`. -/
structure Settings where
  wG : ℚ
  hG : ℚ
  maxPixSearchFrac : ℚ
  slackInterval : ℚ
  stepsize : ℚ
  minImprovementFactor : ℚ
  huberTH : ℚ
  extraSlackOnTH : ℚ
  GNThreshold : ℚ
  GNIterations : ℕ
  minTraceTestRadius : ℤ
deriving DecidableEq, Repr

/-- Camera calibration (`CalibHessian`): focal lengths, principal point and
the cached inverse focal lengths `fxli()`/`fyli()`. -/
structure Calib where
  fx : ℚ
  fy : ℚ
  cx : ℚ
  cy : ℚ
  fxi : ℚ
  fyi : ℚ
deriving DecidableEq, Repr

/-- A frame's image pyramid level 0 sampler: bilinear interpolation of
(intensity, x-gradient, y-gradient) at a sub-pixel position.  This is the
external read-only interface `getInterpolatedElement33`/`31`; samples may be
non-finite near the border, hence the `FP` results. -/
abbrev Frame := FP → FP → FP × FP × FP

/-- `ImmaturePointStatus` from `ImmaturePoint.h`. -/
inductive ImmaturePointStatus where
  | IPS_GOOD
  | IPS_OOB
  | IPS_OUTLIER
  | IPS_SKIPPED
  | IPS_BADCONDITION
  | IPS_UNINITIALIZED
deriving DecidableEq, Repr

/-- Residual state (valid / out-of-bounds / outlier), from the residual
header (declared outside the snapshot; the spec names the three states). -/
inductive ResState where
  | IN
  | OOB
  | OUTLIER
deriving DecidableEq, Repr

/-- The pattern `patternP` = `staticPattern[8]`: the eight offsets listed in
the constructor comment of `ImmaturePoint.cpp`. -/
def patternP : Fin 8 → ℤ × ℤ :=
  ![(0, -2), (-1, -1), (1, -1), (-2, 0), (0, 0), (2, 0), (-1, 1), (0, 2)]

/-- The mutable state of an `ImmaturePoint` that the traced operations read
and write.  `gradH` is the symmetric 2x2 gradient outer-product matrix,
stored as (g00, g01, g11).  The host-frame back reference and the sampled
fingerprint are represented by the `color`/`weights`/`gradH` fields
themselves. -/
structure ImmaturePoint where
  u : ℚ
  v : ℚ
  color : Fin 8 → ℚ
  weights : Fin 8 → ℚ
  gradH00 : ℚ
  gradH01 : ℚ
  gradH11 : ℚ
  energyTH : FP
  quality : FP
  idepth_min : FP
  idepth_max : FP
  lastTraceUV : FP × FP
  lastTracePixelInterval : FP
  lastTraceStatus : ImmaturePointStatus
deriving DecidableEq

/-- `ImmaturePointTemporaryResidual`: per-target candidate residual state. -/
structure TmpRes where
  state_state : ResState
  state_energy : FP
  state_NewState : ResState
  state_NewEnergy : FP
deriving DecidableEq, Repr

/-- The Huber weight `fabs(residual) < setting_huberTH ? 1 : setting_huberTH/fabs(residual)`
(ImmaturePoint.cpp:291, 352, 490, 563). -/
def huberW (TH residual : ℚ) : ℚ :=
  if |residual| < TH then 1 else TH / |residual|

/-- The 5-pixel border check `u > 4 && v > 4 && u < wG[0]-5 && v < hG[0]-5`
(ImmaturePoint.cpp:131, 153, 192).  A non-finite coordinate fails it, exactly
as the IEEE comparisons do in the code. -/
def tBorderOK (S : Settings) (uv : FP × FP) : Bool :=
  FP.lt (FP.fin 4) uv.1 && FP.lt (FP.fin 4) uv.2 &&
  FP.lt uv.1 (FP.fin (S.wG - 5)) && FP.lt uv.2 (FP.fin (S.hG - 5))

/-- The common failure return of `traceOn`: `lastTraceUV = (-1,-1)`,
`lastTracePixelInterval = 0`, and the given status stored and returned
(ImmaturePoint.cpp:136-138 and the analogous sites). -/
def tFail (p : ImmaturePoint) (st : ImmaturePointStatus) : ImmaturePointStatus × ImmaturePoint :=
  (st, { p with lastTraceUV := (FP.fin (-1), FP.fin (-1)),
                lastTracePixelInterval := FP.fin 0,
                lastTraceStatus := st })

/-- `pr = hostToFrame_KRKi * Vec3f(u,v,1)` (ImmaturePoint.cpp:121). -/
def tPr (p : ImmaturePoint) (KRKi : Mat33) : Vec3 :=
  KRKi.mulVec ⟨p.u, p.v, 1⟩

/-- `ptpMin = pr + hostToFrame_Kt*idepth_min` (ImmaturePoint.cpp:124);
`idepth_min` is a stored float field, hence the `FP` arithmetic. -/
def tPtpMin (p : ImmaturePoint) (KRKi : Mat33) (Kt : Vec3) : FP × FP × FP :=
  let pr := tPr p KRKi
  (FP.add (FP.fin pr.x) (FP.mul (FP.fin Kt.x) p.idepth_min),
   FP.add (FP.fin pr.y) (FP.mul (FP.fin Kt.y) p.idepth_min),
   FP.add (FP.fin pr.z) (FP.mul (FP.fin Kt.z) p.idepth_min))

/-- `(uMin, vMin) = (ptpMin[0]/ptpMin[2], ptpMin[1]/ptpMin[2])`
(ImmaturePoint.cpp:127-128). -/
def tUvMin (p : ImmaturePoint) (KRKi : Mat33) (Kt : Vec3) : FP × FP :=
  let ptpMin := tPtpMin p KRKi Kt
  (FP.div ptpMin.1 ptpMin.2.2, FP.div ptpMin.2.1 ptpMin.2.2)

/-- One step of the discrete epipolar search (ImmaturePoint.cpp:279-293):
the Huber-weighted photometric energy of the rotated pattern at `(px, py)`.
A non-finite sample contributes the fixed `1e5` penalty. -/
def stepEnergy (S : Settings) (fr : Frame) (p : ImmaturePoint) (aff : ℚ × ℚ)
    (rot : Fin 8 → ℚ × ℚ) (px py : FP) : ℚ :=
  (List.finRange 8).foldl
    (fun e idx =>
      match (fr (FP.add px (FP.fin (rot idx).1)) (FP.add py (FP.fin (rot idx).2))).1 with
      | FP.fin h =>
        let residual := h - (aff.1 * p.color idx + aff.2)
        let hw := huberW S.huberTH residual
        e + hw * residual * residual * (2 - hw)
      | _ => e + 100000)
    0

/-- The per-step energies `errors[i]` of the discrete search
(ImmaturePoint.cpp:278-310); step `i` samples at `(ptx + i*dx, pty + i*dy)`. -/
def tErrors (S : Settings) (fr : Frame) (p : ImmaturePoint) (aff : ℚ × ℚ)
    (rot : Fin 8 → ℚ × ℚ) (numSteps : ℤ) (ptx pty dxF dyF : FP) : List ℚ :=
  (List.range numSteps.toNat).map (fun i =>
    stepEnergy S fr p aff rot (FP.add ptx (FP.mul (FP.fin (i : ℚ)) dxF))
      (FP.add pty (FP.mul (FP.fin (i : ℚ)) dyF)))

/-- Best-sample tracking of the discrete search (ImmaturePoint.cpp:300-306):
running `(bestU, bestV, bestEnergy, bestIdx)`, initialised to
`(0, 0, 1e10, -1)`; a step wins only on strictly smaller energy. -/
def tBestGo (ptx pty dxF dyF : FP) :
    List ℚ → ℕ → FP × FP × ℚ × ℤ → FP × FP × ℚ × ℤ
  | [], _, best => best
  | e :: rest, i, best =>
    tBestGo ptx pty dxF dyF rest (i + 1)
      (if e < best.2.2.1 then
        (FP.add ptx (FP.mul (FP.fin (i : ℚ)) dxF),
         FP.add pty (FP.mul (FP.fin (i : ℚ)) dyF), e, (i : ℤ))
       else best)

/-- `(bestU, bestV, bestEnergy, bestIdx)` after the discrete search. -/
def tBest (errs : List ℚ) (ptx pty dxF dyF : FP) : FP × FP × ℚ × ℤ :=
  tBestGo ptx pty dxF dyF errs 0 (FP.fin 0, FP.fin 0, 10000000000, -1)

/-- Second-best tracking (ImmaturePoint.cpp:314-319): the minimal energy among
steps outside the `setting_minTraceTestRadius` exclusion window around
`bestIdx`, initialised to `1e10`. -/
def tSecondBestGo (S : Settings) (bestIdx : ℤ) : List ℚ → ℕ → ℚ → ℚ
  | [], _, sb => sb
  | e :: rest, i, sb =>
    tSecondBestGo S bestIdx rest (i + 1)
      (if ((i : ℤ) < bestIdx - S.minTraceTestRadius ∨ bestIdx + S.minTraceTestRadius < (i : ℤ)) ∧ e < sb
       then e else sb)

/-- `secondBest` after the discrete search. -/
def tSecondBest (S : Settings) (errs : List ℚ) (bestIdx : ℤ) : ℚ :=
  tSecondBestGo S bestIdx errs 0 10000000000

/-- `newQuality = secondBest / bestEnergy` (ImmaturePoint.cpp:331), a float
division that can produce `inf` or `nan` when `bestEnergy` is zero. -/
def tNewQuality (S : Settings) (fr : Frame) (p : ImmaturePoint) (aff : ℚ × ℚ)
    (rot : Fin 8 → ℚ × ℚ) (numSteps : ℤ) (ptx pty dxF dyF : FP) : FP :=
  let errs := tErrors S fr p aff rot numSteps ptx pty dxF dyF
  let best := tBest errs ptx pty dxF dyF
  FP.div (FP.fin (tSecondBest S errs best.2.2.2)) (FP.fin best.2.2.1)

/-- The quality-update rule `if (newQuality < quality || numSteps > 10)
quality = newQuality;` (ImmaturePoint.cpp:332). -/
def tQualityUpdate (q nq : FP) (numSteps : ℤ) : FP :=
  if FP.lt nq q || decide (10 < numSteps) then nq else q

/-- One Gauss-Newton evaluation (ImmaturePoint.cpp:340-357): accumulate
`H` (init 1), `b` (init 0) and the weighted energy over the pattern at
`(bu, bv)`.  `H` and `b` use the sampled gradients, which the code does not
check for finiteness, hence their `FP` type; the energy only uses the
intensity, which is checked (`continue` with a `1e5` penalty otherwise). -/
def gnStepData (S : Settings) (fr : Frame) (p : ImmaturePoint) (aff : ℚ × ℚ)
    (rot : Fin 8 → ℚ × ℚ) (dxF dyF bu bv : FP) : FP × FP × ℚ :=
  (List.finRange 8).foldl
    (fun acc idx =>
      let hit := fr (FP.add bu (FP.fin (rot idx).1)) (FP.add bv (FP.fin (rot idx).2))
      match hit.1 with
      | FP.fin h =>
        let residual := h - (aff.1 * p.color idx + aff.2)
        let dResdDist := FP.add (FP.mul dxF hit.2.1) (FP.mul dyF hit.2.2)
        let hw := huberW S.huberTH residual
        (FP.add acc.1 (FP.mul (FP.mul (FP.fin hw) dResdDist) dResdDist),
         FP.add acc.2.1 (FP.mul (FP.fin (hw * residual)) dResdDist),
         acc.2.2 + p.weights idx * p.weights idx * hw * residual * residual * (2 - hw))
      | _ => (acc.1, acc.2.1, acc.2.2 + 100000))
    (FP.fin 1, FP.fin 0, 0)

/-- The Gauss-Newton refinement loop (ImmaturePoint.cpp:339-395), with the
iteration count as fuel.  State: current `(bestU, bestV, bestEnergy)` plus the
backtracking state `(uBak, vBak, stepBack)`.  A worse energy halves the
previous step from the saved point; otherwise the clamped step
`-b/H ∈ [-0.5, 0.5]` (0 if non-finite) is accepted.  The loop breaks when
`|stepBack| < setting_trace_GNThreshold`. -/
def gnLoop (S : Settings) (fr : Frame) (p : ImmaturePoint) (aff : ℚ × ℚ)
    (rot : Fin 8 → ℚ × ℚ) (dxF dyF : FP) :
    ℕ → FP → FP → ℚ → FP → FP → ℚ → FP × FP × ℚ
  | 0, bu, bv, be, _, _, _ => (bu, bv, be)
  | Nat.succ it, bu, bv, be, uBak, vBak, stepBack =>
    let hbe := gnStepData S fr p aff rot dxF dyF bu bv
    if be < hbe.2.2 then
      let sb := stepBack * (1 / 2)
      let bu2 := FP.add uBak (FP.mul (FP.fin sb) dxF)
      let bv2 := FP.add vBak (FP.mul (FP.fin sb) dyF)
      if |sb| < S.GNThreshold then (bu2, bv2, be)
      else gnLoop S fr p aff rot dxF dyF it bu2 bv2 be uBak vBak sb
    else
      let step0 := FP.div (FP.neg hbe.2.1) hbe.1
      let step1 :=
        if FP.lt step0 (FP.fin (-(1 / 2))) then FP.fin (-(1 / 2))
        else if FP.lt (FP.fin (1 / 2)) step0 then FP.fin (1 / 2)
        else step0
      let stepQ : ℚ := match step1 with | FP.fin q => q | _ => 0
      let bu2 := FP.add bu (FP.mul (FP.fin stepQ) dxF)
      let bv2 := FP.add bv (FP.mul (FP.fin stepQ) dyF)
      if |stepQ| < S.GNThreshold then (bu2, bv2, hbe.2.2)
      else gnLoop S fr p aff rot dxF dyF it bu2 bv2 hbe.2.2 bu bv stepQ

/-- Entry to the GN loop (ImmaturePoint.cpp:336-338): `uBak = bestU`,
`vBak = bestV`, `stepBack = 0`, and `bestEnergy` reset to `1e5` when at least
one iteration will run. -/
def gnRun (S : Settings) (fr : Frame) (p : ImmaturePoint) (aff : ℚ × ℚ)
    (rot : Fin 8 → ℚ × ℚ) (dxF dyF bu bv : FP) (be : ℚ) : FP × FP × ℚ :=
  gnLoop S fr p aff rot dxF dyF S.GNIterations bu bv
    (if 0 < S.GNIterations then 100000 else be) bu bv 0

/-- The new inverse-depth interval (ImmaturePoint.cpp:420-431): invert the
projection at `best` minus/plus `errorInPixel*direction` along the dominant
axis, then swap the two bounds if out of order. -/
def tNewInterval (bu bv e dxF dyF : FP) (pr Kt : Vec3) : FP × FP :=
  let pair :=
    if FP.lt (FP.mul dyF dyF) (FP.mul dxF dxF) then
      let aMinus := FP.sub bu (FP.mul e dxF)
      let aPlus := FP.add bu (FP.mul e dxF)
      (FP.div (FP.sub (FP.mul (FP.fin pr.z) aMinus) (FP.fin pr.x))
              (FP.sub (FP.fin Kt.x) (FP.mul (FP.fin Kt.z) aMinus)),
       FP.div (FP.sub (FP.mul (FP.fin pr.z) aPlus) (FP.fin pr.x))
              (FP.sub (FP.fin Kt.x) (FP.mul (FP.fin Kt.z) aPlus)))
    else
      let aMinus := FP.sub bv (FP.mul e dyF)
      let aPlus := FP.add bv (FP.mul e dyF)
      (FP.div (FP.sub (FP.mul (FP.fin pr.z) aMinus) (FP.fin pr.y))
              (FP.sub (FP.fin Kt.y) (FP.mul (FP.fin Kt.z) aMinus)),
       FP.div (FP.sub (FP.mul (FP.fin pr.z) aPlus) (FP.fin pr.y))
              (FP.sub (FP.fin Kt.y) (FP.mul (FP.fin Kt.z) aPlus)))
  if FP.lt pair.2 pair.1 then (pair.2, pair.1) else (pair.1, pair.2)

/-- The tail of `traceOn` from the energy-based outlier check on
(ImmaturePoint.cpp:398-444): outlier escalation, interval update (the fields
are assigned before the validity check), and the final status. -/
def traceOnEnd (S : Settings) (p : ImmaturePoint) (bestEnergy : ℚ) (bu bv e dxF dyF : FP)
    (pr Kt : Vec3) : ImmaturePointStatus × ImmaturePoint :=
  if !(FP.lt (FP.fin bestEnergy) (FP.mul p.energyTH (FP.fin S.extraSlackOnTH))) then
    let p2 := { p with lastTracePixelInterval := FP.fin 0,
                       lastTraceUV := (FP.fin (-1), FP.fin (-1)) }
    if p.lastTraceStatus = ImmaturePointStatus.IPS_OUTLIER then
      (ImmaturePointStatus.IPS_OOB, { p2 with lastTraceStatus := ImmaturePointStatus.IPS_OOB })
    else
      (ImmaturePointStatus.IPS_OUTLIER,
        { p2 with lastTraceStatus := ImmaturePointStatus.IPS_OUTLIER })
  else
    let mm := tNewInterval bu bv e dxF dyF pr Kt
    let p2 := { p with idepth_min := mm.1, idepth_max := mm.2 }
    if !mm.1.isFinite || !mm.2.isFinite || FP.lt mm.2 (FP.fin 0) then
      (ImmaturePointStatus.IPS_OUTLIER,
        { p2 with lastTracePixelInterval := FP.fin 0,
                  lastTraceUV := (FP.fin (-1), FP.fin (-1)),
                  lastTraceStatus := ImmaturePointStatus.IPS_OUTLIER })
    else
      (ImmaturePointStatus.IPS_GOOD,
        { p2 with lastTracePixelInterval := FP.mul (FP.fin 2) e,
                  lastTraceUV := (bu, bv),
                  lastTraceStatus := ImmaturePointStatus.IPS_GOOD })

/-- The discrete search, quality update and GN refinement
(ImmaturePoint.cpp:273-395), followed by `traceOnEnd`. -/
def traceOnSearch (S : Settings) (fr : Frame) (p : ImmaturePoint) (aff : ℚ × ℚ)
    (rot : Fin 8 → ℚ × ℚ) (numSteps : ℤ) (ptx pty dxF dyF e : FP)
    (pr Kt : Vec3) : ImmaturePointStatus × ImmaturePoint :=
  let errs := tErrors S fr p aff rot numSteps ptx pty dxF dyF
  let best := tBest errs ptx pty dxF dyF
  let nq := tNewQuality S fr p aff rot numSteps ptx pty dxF dyF
  let p1 := { p with quality := tQualityUpdate p.quality nq numSteps }
  let gn := gnRun S fr p aff rot dxF dyF best.1 best.2.1 best.2.2.1
  traceOnEnd S p1 gn.2.2 gn.1 gn.2.1 e dxF dyF pr Kt

/-- `traceOn` from the scale check on (ImmaturePoint.cpp:203-270): degenerate
scale-change rejection, error bound `errorInPixel`, bad-condition exit,
direction normalisation, `maxPixSearch` clamp, step count, start position and
the final finiteness check on the direction, then the search. -/
def traceOnScale (S : Settings) (fr : Frame) (p : ImmaturePoint) (aff : ℚ × ℚ)
    (KRKi : Mat33) (Kt : Vec3) (pr : Vec3) (ptpMinZ uMin vMin uMax vMax dist : FP)
    (maxPixSearch : ℚ) : ImmaturePointStatus × ImmaturePoint :=
  if !(FP.lt p.idepth_min (FP.fin 0) ||
       (FP.lt (FP.fin (3 / 4)) ptpMinZ && FP.lt ptpMinZ (FP.fin (3 / 2)))) then
    tFail p ImmaturePointStatus.IPS_OOB
  else
    let dx0 := FP.mul (FP.fin S.stepsize) (FP.sub uMax uMin)
    let dy0 := FP.mul (FP.fin S.stepsize) (FP.sub vMax vMin)
    let aQ := FP.add (FP.mul dx0 (FP.add (FP.mul (FP.fin p.gradH00) dx0) (FP.mul (FP.fin p.gradH01) dy0)))
                     (FP.mul dy0 (FP.add (FP.mul (FP.fin p.gradH01) dx0) (FP.mul (FP.fin p.gradH11) dy0)))
    let bQ := FP.add (FP.mul dy0 (FP.add (FP.mul (FP.fin p.gradH00) dy0) (FP.mul (FP.fin p.gradH01) (FP.neg dx0))))
                     (FP.mul (FP.neg dx0) (FP.add (FP.mul (FP.fin p.gradH01) dy0) (FP.mul (FP.fin p.gradH11) (FP.neg dx0))))
    let e0 := FP.add (FP.fin (1 / 5)) (FP.div (FP.mul (FP.fin (1 / 5)) (FP.add aQ bQ)) aQ)
    if FP.lt dist (FP.mul e0 (FP.fin S.minImprovementFactor)) && p.idepth_max.isFinite then
      (ImmaturePointStatus.IPS_BADCONDITION,
        { p with lastTraceUV := (FP.mul (FP.add uMax uMin) (FP.fin (1 / 2)),
                                 FP.mul (FP.add vMax vMin) (FP.fin (1 / 2))),
                 lastTracePixelInterval := dist,
                 lastTraceStatus := ImmaturePointStatus.IPS_BADCONDITION })
    else
      let e1 := if FP.lt (FP.fin 10) e0 then FP.fin 10 else e0
      let dx1 := FP.div dx0 dist
      let dy1 := FP.div dy0 dist
      let dist2 := if FP.lt (FP.fin maxPixSearch) dist then FP.fin maxPixSearch else dist
      let numSteps0 := FP.truncInt (FP.add (FP.fin (19999 / 10000)) (FP.div dist2 (FP.fin S.stepsize)))
      let numSteps := if 100 ≤ numSteps0 then 99 else numSteps0
      let rot : Fin 8 → ℚ × ℚ := fun idx =>
        (KRKi.a00 * ((patternP idx).1 : ℚ) + KRKi.a01 * ((patternP idx).2 : ℚ),
         KRKi.a10 * ((patternP idx).1 : ℚ) + KRKi.a11 * ((patternP idx).2 : ℚ))
      let randShift := FP.sub (FP.mul uMin (FP.fin 1000)) (FP.floorF (FP.mul uMin (FP.fin 1000)))
      let ptx := FP.sub uMin (FP.mul randShift dx1)
      let pty := FP.sub vMin (FP.mul randShift dy1)
      if !(dx1.isFinite && dy1.isFinite) then tFail p ImmaturePointStatus.IPS_OOB
      else traceOnSearch S fr p aff rot numSteps ptx pty dx1 dy1 e1 pr Kt

/-- `ImmaturePoint::traceOn` (ImmaturePoint.cpp:89-445).  `rsqrt` stands for
the external `sqrtf`, `fr` for the target frame's sampler.  Settings and the
relative transform `(hostToFrame_KRKi, hostToFrame_Kt, hostToFrame_affine)`
are passed as in the code.  Returns the status together with the updated
point state. -/
def traceOn (S : Settings) (rsqrt : ℚ → ℚ) (fr : Frame) (p : ImmaturePoint)
    (KRKi : Mat33) (Kt : Vec3) (aff : ℚ × ℚ) : ImmaturePointStatus × ImmaturePoint :=
  if p.lastTraceStatus = ImmaturePointStatus.IPS_OOB then (ImmaturePointStatus.IPS_OOB, p)
  else
    let maxPixSearch := (S.wG + S.hG) * S.maxPixSearchFrac
    let pr := tPr p KRKi
    let ptpMin := tPtpMin p KRKi Kt
    let uvMin := tUvMin p KRKi Kt
    if !tBorderOK S uvMin then tFail p ImmaturePointStatus.IPS_OOB
    else
      if p.idepth_max.isFinite then
        let ptpMaxX := FP.add (FP.fin pr.x) (FP.mul (FP.fin Kt.x) p.idepth_max)
        let ptpMaxY := FP.add (FP.fin pr.y) (FP.mul (FP.fin Kt.y) p.idepth_max)
        let ptpMaxZ := FP.add (FP.fin pr.z) (FP.mul (FP.fin Kt.z) p.idepth_max)
        let uMax := FP.div ptpMaxX ptpMaxZ
        let vMax := FP.div ptpMaxY ptpMaxZ
        if !tBorderOK S (uMax, vMax) then tFail p ImmaturePointStatus.IPS_OOB
        else
          let distSq := FP.add (FP.mul (FP.sub uvMin.1 uMax) (FP.sub uvMin.1 uMax))
                               (FP.mul (FP.sub uvMin.2 vMax) (FP.sub uvMin.2 vMax))
          let dist := FP.sqrt rsqrt distSq
          if FP.lt dist (FP.fin S.slackInterval) then
            (ImmaturePointStatus.IPS_SKIPPED,
              { p with lastTraceUV := (FP.mul (FP.add uMax uvMin.1) (FP.fin (1 / 2)),
                                       FP.mul (FP.add vMax uvMin.2) (FP.fin (1 / 2))),
                       lastTracePixelInterval := dist,
                       lastTraceStatus := ImmaturePointStatus.IPS_SKIPPED })
          else
            traceOnScale S fr p aff KRKi Kt pr ptpMin.2.2 uvMin.1 uvMin.2 uMax vMax dist
              maxPixSearch
      else
        let dist := FP.fin maxPixSearch
        let ptpMaxX := FP.fin (pr.x + Kt.x * (1 / 100))
        let ptpMaxY := FP.fin (pr.y + Kt.y * (1 / 100))
        let ptpMaxZ := FP.fin (pr.z + Kt.z * (1 / 100))
        let u0 := FP.div ptpMaxX ptpMaxZ
        let v0 := FP.div ptpMaxY ptpMaxZ
        let ddx := FP.sub u0 uvMin.1
        let ddy := FP.sub v0 uvMin.2
        let dnorm := FP.div (FP.fin 1) (FP.sqrt rsqrt (FP.add (FP.mul ddx ddx) (FP.mul ddy ddy)))
        let uMax := FP.add uvMin.1 (FP.mul (FP.mul dist ddx) dnorm)
        let vMax := FP.add uvMin.2 (FP.mul (FP.mul dist ddy) dnorm)
        if !tBorderOK S (uMax, vMax) then tFail p ImmaturePointStatus.IPS_OOB
        else
          traceOnScale S fr p aff KRKi Kt pr ptpMin.2.2 uvMin.1 uvMin.2 uMax vMax dist
            maxPixSearch

/-- Modelled from the spec: the projection-geometry helper used by
`calcResidual` — "pure functions mapping a host-frame pixel + inverse depth +
relative pose into a target-frame pixel" with
`target_homogeneous = R*[u,v,1] + t*idepth; pixel = (x/z, y/z)`; the
projection fails when the target pixel leaves the valid image region (a small
modelled border margin).  The two-argument overload of `projectPoint` from
`ResidualProjections.h` is declared but not present under `src/`. -/
def projectPointK (S : Settings) (u v idepth : ℚ) (KRKi : Mat33) (Kt : Vec3) :
    Bool × ℚ × ℚ :=
  let ptp := Vec3.addScaled (KRKi.mulVec ⟨u, v, 1⟩) Kt idepth
  let Ku := ptp.x / ptp.z
  let Kv := ptp.y / ptp.z
  (decide (11 / 10 < Ku) && decide (Ku < S.wG - 3) &&
   decide (11 / 10 < Kv) && decide (Kv < S.hG - 3), Ku, Kv)

/-- The projection of pattern offset `idx` inside `calcResidual`
(ImmaturePoint.cpp:481): the center pixel plus the pattern offset is
projected. -/
def calcProjOK (S : Settings) (p : ImmaturePoint) (KRKi : Mat33) (Kt : Vec3)
    (idepth : ℚ) (idx : Fin 8) : Bool × ℚ × ℚ :=
  projectPointK S (p.u + ((patternP idx).1 : ℚ)) (p.v + ((patternP idx).2 : ℚ)) idepth KRKi Kt

/-- The accumulation loop of `calcResidual` (ImmaturePoint.cpp:479-492):
`none` signals the early `return 1e10` on a failed projection or a non-finite
sampled intensity; `some` carries the accumulated energy. -/
def calcResLoop (S : Settings) (fr : Frame) (p : ImmaturePoint) (KRKi : Mat33)
    (Kt : Vec3) (aff : ℚ × ℚ) (idepth : ℚ) : List (Fin 8) → ℚ → Option ℚ
  | [], acc => some acc
  | idx :: rest, acc =>
    let pj := calcProjOK S p KRKi Kt idepth idx
    if pj.1 = false then none
    else
      match (fr (FP.fin pj.2.1) (FP.fin pj.2.2)).1 with
      | FP.fin h =>
        let residual := h - (aff.1 * p.color idx + aff.2)
        let hw := huberW S.huberTH residual
        calcResLoop S fr p KRKi Kt aff idepth rest
          (acc + p.weights idx * p.weights idx * hw * residual * residual * (2 - hw))
      | _ => none

/-- `ImmaturePoint::calcResidual` (ImmaturePoint.cpp:467-498): energy of the
pattern at a hypothesized inverse depth; `1e10` on any projection/sampling
failure, otherwise the accumulated energy clamped to
`energyTH * outlierTHSlack`. -/
def calcResidual (S : Settings) (fr : Frame) (p : ImmaturePoint) (KRKi : Mat33)
    (Kt : Vec3) (aff : ℚ × ℚ) (outlierTHSlack idepth : ℚ) : FP :=
  match calcResLoop S fr p KRKi Kt aff idepth (List.finRange 8) 0 with
  | none => FP.fin 10000000000
  | some energyLeft =>
    if FP.lt (FP.mul p.energyTH (FP.fin outlierTHSlack)) (FP.fin energyLeft) then
      FP.mul p.energyTH (FP.fin outlierTHSlack)
    else FP.fin energyLeft

/-- `calcResidual` in state-passing form: the source writes no member of the
point or of the temporary residual, so the state components pass through
unchanged. -/
def calcResidualS (S : Settings) (fr : Frame) (p : ImmaturePoint) (KRKi : Mat33)
    (Kt : Vec3) (aff : ℚ × ℚ) (outlierTHSlack idepth : ℚ) (tmp : TmpRes) :
    FP × ImmaturePoint × TmpRes :=
  (calcResidual S fr p KRKi Kt aff outlierTHSlack idepth, p, tmp)

/-- `KliP = ((u+dx-cx)*fxi, (v+dy-cy)*fyi, 1)`, the back-projected host ray of
the long-form projection (modelled from the spec's projection geometry). -/
def tKliP (C : Calib) (u v : ℚ) (dx dy : ℤ) : Vec3 :=
  ⟨(u + (dx : ℚ) - C.cx) * C.fxi, (v + (dy : ℚ) - C.cy) * C.fyi, 1⟩

/-- The z-component of the projected point `ptp = R*KliP + t*idepth` of the
long-form projection; the depth-rescale factor is its reciprocal. -/
def projZ (C : Calib) (u v idepth : ℚ) (dx dy : ℤ) (R : Mat33) (t : Vec3) : ℚ :=
  (Vec3.addScaled (R.mulVec (tKliP C u v dx dy)) t idepth).z

/-- Output record of the long-form projection.  On failure the pixel outputs
are 0, matching the callers, which zero-initialise the output variables and
(in `getdPixdd`) read them regardless of the returned flag. -/
structure Proj where
  ok : Bool
  drescale : FP
  pu : FP
  pv : FP
  Ku : FP
  Kv : FP
deriving DecidableEq, Repr

/-- Modelled from the spec: the long-form projection helper used by
`linearizeResidual` and `getdPixdd` — project the center pixel at the
hypothesized inverse depth, "obtaining target pixel, a depth-rescale factor,
and the projected non-homogeneous direction"; it fails when the depth-rescale
factor is not positive (point behind the camera) or the target pixel leaves
the valid image region (modelled margin).  The long overload of
`projectPoint` from `ResidualProjections.h` is not present under `src/`. -/
def projectPointFull (S : Settings) (C : Calib) (u v idepth : ℚ) (dx dy : ℤ)
    (R : Mat33) (t : Vec3) : Proj :=
  let z := projZ C u v idepth dx dy R t
  let ptp := Vec3.addScaled (R.mulVec (tKliP C u v dx dy)) t idepth
  let drescale := FP.div (FP.fin 1) (FP.fin z)
  if !(FP.lt (FP.fin 0) drescale) then
    { ok := false, drescale := drescale, pu := FP.fin 0, pv := FP.fin 0,
      Ku := FP.fin 0, Kv := FP.fin 0 }
  else
    let uu := FP.mul (FP.fin ptp.x) drescale
    let vv := FP.mul (FP.fin ptp.y) drescale
    let Ku := FP.add (FP.mul uu (FP.fin C.fx)) (FP.fin C.cx)
    let Kv := FP.add (FP.mul vv (FP.fin C.fy)) (FP.fin C.cy)
    { ok := FP.lt (FP.fin (11 / 10)) Ku && FP.lt Ku (FP.fin (S.wG - 3)) &&
            FP.lt (FP.fin (11 / 10)) Kv && FP.lt Kv (FP.fin (S.hG - 3)),
      drescale := drescale, pu := uu, pv := vv, Ku := Ku, Kv := Kv }

/-- Modelled from the spec: `derive_idepth` from `ResidualProjections.h` (not
under `src/`) — the derivative of the residual w.r.t. inverse depth,
combining the image-plane gradient, the translation, the projected direction
and the depth-rescale factor. -/
def derive_idepth (t : Vec3) (u v : FP) (dx dy : ℤ) (dxInterp dyInterp drescale : FP) : FP :=
  FP.mul (FP.add (FP.mul (FP.mul dxInterp drescale) (FP.sub (FP.fin t.x) (FP.mul (FP.fin t.z) u)))
                 (FP.mul (FP.mul dyInterp drescale) (FP.sub (FP.fin t.y) (FP.mul (FP.fin t.z) v))))
         drescale

/-- Result record of `linearizeResidual`: the returned energy, the two
accumulated by-reference scalars, and the written pending state/energy. -/
structure LinOut where
  ret : FP
  Hdd : FP
  bd : FP
  newState : ResState
  newEnergy : FP
deriving DecidableEq, Repr

/-- The pattern loop of `linearizeResidual` (ImmaturePoint.cpp:526-576) with
the final clamp/state assignment (ImmaturePoint.cpp:579-587) at the end of
the list.  On a failed projection or non-finite intensity the loop returns
the previously stored energy with pending state `OOB`, leaving the pending
energy at its prior value; `Hdd`/`bd` keep whatever has been accumulated. -/
def linLoop (S : Settings) (C : Calib) (fr : Frame) (p : ImmaturePoint)
    (R : Mat33) (t : Vec3) (aff : ℚ × ℚ) (outlierTHSlack : ℚ) (tmp : TmpRes)
    (idepth : ℚ) : List (Fin 8) → ℚ → FP → FP → LinOut
  | [], eAcc, H, b =>
    if FP.lt (FP.mul p.energyTH (FP.fin outlierTHSlack)) (FP.fin eAcc) then
      { ret := FP.mul p.energyTH (FP.fin outlierTHSlack), Hdd := H, bd := b,
        newState := ResState.OUTLIER,
        newEnergy := FP.mul p.energyTH (FP.fin outlierTHSlack) }
    else
      { ret := FP.fin eAcc, Hdd := H, bd := b, newState := ResState.IN,
        newEnergy := FP.fin eAcc }
  | idx :: rest, eAcc, H, b =>
    let dx := (patternP idx).1
    let dy := (patternP idx).2
    let pj := projectPointFull S C p.u p.v idepth dx dy R t
    if pj.ok = false then
      { ret := tmp.state_energy, Hdd := H, bd := b, newState := ResState.OOB,
        newEnergy := tmp.state_NewEnergy }
    else
      let hit := fr pj.Ku pj.Kv
      match hit.1 with
      | FP.fin h =>
        let residual := h - (aff.1 * p.color idx + aff.2)
        let hw := huberW S.huberTH residual
        let eAcc2 := eAcc + p.weights idx * p.weights idx * hw * residual * residual * (2 - hw)
        let dxInterp := FP.mul hit.2.1 (FP.fin C.fx)
        let dyInterp := FP.mul hit.2.2 (FP.fin C.fy)
        let d_idepth := derive_idepth t pj.pu pj.pv dx dy dxInterp dyInterp pj.drescale
        let hw2 := hw * (p.weights idx * p.weights idx)
        linLoop S C fr p R t aff outlierTHSlack tmp idepth rest eAcc2
          (FP.add H (FP.mul (FP.mul (FP.fin hw2) d_idepth) d_idepth))
          (FP.add b (FP.mul (FP.fin (hw2 * residual)) d_idepth))
      | _ =>
        { ret := tmp.state_energy, Hdd := H, bd := b, newState := ResState.OOB,
          newEnergy := tmp.state_NewEnergy }

/-- `ImmaturePoint::linearizeResidual` (ImmaturePoint.cpp:501-588).  `Hdd0`
and `bd0` are the incoming values of the by-reference accumulators.  A
candidate already in state `OOB` short-circuits, returning the stored energy
with everything else untouched. -/
def linearizeResidual (S : Settings) (C : Calib) (fr : Frame) (p : ImmaturePoint)
    (R : Mat33) (t : Vec3) (aff : ℚ × ℚ) (outlierTHSlack : ℚ) (tmp : TmpRes)
    (Hdd0 bd0 : FP) (idepth : ℚ) : LinOut :=
  if tmp.state_state = ResState.OOB then
    { ret := tmp.state_energy, Hdd := Hdd0, bd := bd0, newState := ResState.OOB,
      newEnergy := tmp.state_NewEnergy }
  else linLoop S C fr p R t aff outlierTHSlack tmp idepth (List.finRange 8) 0 Hdd0 bd0

/-- `ImmaturePoint::getdPixdd` (ImmaturePoint.cpp:448-464): the magnitude of
target-pixel motion per unit change in inverse depth at the hypothesized
inverse depth.  `rsqrt` stands for the external `sqrtf`.  The returned flag
of the projection is ignored, exactly as in the code. -/
def getdPixdd (S : Settings) (C : Calib) (rsqrt : ℚ → ℚ) (p : ImmaturePoint)
    (R : Mat33) (t : Vec3) (idepth : ℚ) : FP :=
  let pj := projectPointFull S C p.u p.v idepth 0 0 R t
  let dxdd := FP.mul (FP.sub (FP.fin t.x) (FP.mul (FP.fin t.z) pj.pu)) (FP.fin C.fx)
  let dydd := FP.mul (FP.sub (FP.fin t.y) (FP.mul (FP.fin t.z) pj.pv)) (FP.fin C.fy)
  FP.mul pj.drescale (FP.sqrt rsqrt (FP.add (FP.mul dxdd dxdd) (FP.mul dydd dydd)))

/-- `getdPixdd` in state-passing form: the source writes no member of the
point or of the temporary residual. -/
def getdPixddS (S : Settings) (C : Calib) (rsqrt : ℚ → ℚ) (p : ImmaturePoint)
    (R : Mat33) (t : Vec3) (idepth : ℚ) (tmp : TmpRes) : FP × ImmaturePoint × TmpRes :=
  (getdPixdd S C rsqrt p R t idepth, p, tmp)

/-- The interval invariant claimed for successful traces: both bounds finite,
ordered, and the upper bound nonnegative. -/
def intervalOK (p : ImmaturePoint) : Prop :=
  p.idepth_min.isFinite = true ∧ p.idepth_max.isFinite = true ∧
  FP.le p.idepth_min p.idepth_max = true ∧ FP.le (FP.fin 0) p.idepth_max = true

/-! Concrete fixtures used by the closed evaluation theorems. -/

/-- A constant black frame sampler. -/
def frZero : Frame := fun _ _ => (FP.fin 0, FP.fin 0, FP.fin 0)

/-- A square root valued 0 everywhere (exact at 0). -/
def rs0 : ℚ → ℚ := fun _ => 0

/-- A square root exact at 25 (and at 0). -/
def rs25 : ℚ → ℚ := fun q => if q = 25 then 5 else 0

/-- A square root exact at 9 (and at 0). -/
def rs9 : ℚ → ℚ := fun q => if q = 9 then 3 else 0

/-- Identity relative rotation. -/
def I3 : Mat33 := ⟨1, 0, 0, 0, 1, 0, 0, 0, 1⟩

/-- Settings for the good-trace evaluation: 100x100 image, no slack interval,
no GN iterations. -/
def S0 : Settings := ⟨100, 100, 1, 0, 1, 2, 9, 6 / 5, 1 / 10, 0, 2⟩

/-- Settings with the default-like values: 640x480 image, slack interval 2. -/
def S1 : Settings := ⟨640, 480, 27 / 1000, 2, 1, 2, 9, 6 / 5, 1 / 10, 3, 2⟩

/-- Settings for a tiny 20x20 image. -/
def S2 : Settings := ⟨20, 20, 27 / 1000, 3 / 2, 1, 2, 9, 6 / 5, 1 / 10, 3, 2⟩

/-- A validly constructed point at the origin pixel with a flat fingerprint,
identity-like gradient matrix, `energyTH = 8 * 114 = 912`. -/
def pBase : ImmaturePoint :=
  ⟨0, 0, fun _ => 0, fun _ => 1, 1, 0, 1, FP.fin 912, FP.fin 10000, FP.fin 0, FP.nan,
   (FP.fin 0, FP.fin 0), FP.fin 0, ImmaturePointStatus.IPS_UNINITIALIZED⟩

/-- A point at pixel (5,5) with fingerprint intensity 10. -/
def p5 : ImmaturePoint := { pBase with u := 5, v := 5, color := fun _ => 10 }

/-- Unit calibration: focal lengths 1, principal point 0. -/
def calib1 : Calib := ⟨1, 1, 0, 0, 1, 1⟩

/-- A frame that is non-finite exactly on the pixel column x = 4. -/
def fr5 : Frame := fun x _ =>
  if x = FP.fin 4 then (FP.nan, FP.fin 0, FP.fin 0) else (FP.fin 10, FP.fin 1, FP.fin 0)

/-- A valid temporary residual with stored energy 7 and pending energy 3. -/
def tmp5 : TmpRes := ⟨ResState.IN, FP.fin 7, ResState.IN, FP.fin 3⟩

/-- Relative transform placing the projection at pixel (50,50), depth scale 1. -/
def MC1 : Mat33 := ⟨1, 0, 50, 0, 1, 50, 0, 0, 1⟩

/-- Relative transform placing the projection at pixel (50,50), depth scale 2. -/
def MC2 : Mat33 := ⟨1, 0, 100, 0, 1, 100, 0, 0, 2⟩

/-! Basic lemmas about the `FP` arithmetic. -/

theorem FP.add_fin (a b : ℚ) : FP.add (FP.fin a) (FP.fin b) = FP.fin (a + b) := rfl

theorem FP.mul_fin (a b : ℚ) : FP.mul (FP.fin a) (FP.fin b) = FP.fin (a * b) := rfl

theorem FP.sub_fin (a b : ℚ) : FP.sub (FP.fin a) (FP.fin b) = FP.fin (a - b) := by
  show FP.fin (a + -b) = FP.fin (a - b)
  rw [← sub_eq_add_neg]

theorem FP.div_fin (a b : ℚ) :
    FP.div (FP.fin a) (FP.fin b) =
      if b = 0 then (if a = 0 then FP.nan else if 0 < a then FP.inf true else FP.inf false)
      else FP.fin (a / b) := rfl

theorem FP.lt_fin (a b : ℚ) : FP.lt (FP.fin a) (FP.fin b) = decide (a < b) := rfl

theorem FP.sqrt_fin (rsqrt : ℚ → ℚ) (q : ℚ) :
    FP.sqrt rsqrt (FP.fin q) = if q < 0 then FP.nan else FP.fin (rsqrt q) := rfl

theorem FP.le_fin_fin {a b : ℚ} (h : a ≤ b) : FP.le (FP.fin a) (FP.fin b) = true := by
  rcases lt_or_eq_of_le h with h1 | h1
  · simp [FP.le, FP.lt, h1]
  · subst h1; simp [FP.le]

theorem FP.lt_fin_fin_false {a b : ℚ} (h : FP.lt (FP.fin a) (FP.fin b) = false) : b ≤ a := by
  simpa [FP.lt] using h

theorem FP.le_zero_of_finite_not_neg {x : FP} (hf : x.isFinite = true)
    (h : FP.lt x (FP.fin 0) = false) : FP.le (FP.fin 0) x = true := by
  cases x with
  | fin q => exact FP.le_fin_fin (FP.lt_fin_fin_false h)
  | nan => simp [FP.isFinite] at hf
  | inf s => simp [FP.isFinite] at hf

theorem FP.div_nonneg_not_neg {a b : ℚ} (ha : 0 ≤ a) (hb : 0 ≤ b) :
    FP.lt (FP.div (FP.fin a) (FP.fin b)) (FP.fin 0) = false := by
  rw [FP.div_fin]
  by_cases hb0 : b = 0
  · rw [if_pos hb0]
    by_cases ha0 : a = 0
    · rw [if_pos ha0]; rfl
    · rw [if_neg ha0, if_pos (lt_of_le_of_ne ha (Ne.symm ha0))]; rfl
  · rw [if_neg hb0]
    simp [FP.lt, not_lt]
    exact div_nonneg ha hb

theorem FP.swap_pair_le (a b : FP)
    (h1 : (if FP.lt b a then (b, a) else (a, b)).1.isFinite = true)
    (h2 : (if FP.lt b a then (b, a) else (a, b)).2.isFinite = true) :
    FP.le (if FP.lt b a then (b, a) else (a, b)).1
      (if FP.lt b a then (b, a) else (a, b)).2 = true := by
  by_cases hlt : FP.lt b a = true
  · simp only [hlt, if_true] at h1 h2 ⊢
    cases a with
    | fin qa =>
      cases b with
      | fin qb =>
        have : qb < qa := by simpa [FP.lt] using hlt
        exact FP.le_fin_fin this.le
      | nan => simp [FP.isFinite] at h1
      | inf s => simp [FP.isFinite] at h1
    | nan => simp [FP.isFinite] at h2
    | inf s => simp [FP.isFinite] at h2
  · simp only [Bool.not_eq_true] at hlt
    simp only [hlt, Bool.false_eq_true, if_false] at h1 h2 ⊢
    cases a with
    | fin qa =>
      cases b with
      | fin qb => exact FP.le_fin_fin (FP.lt_fin_fin_false hlt)
      | nan => simp [FP.isFinite] at h2
      | inf s => simp [FP.isFinite] at h2
    | nan => simp [FP.isFinite] at h1
    | inf s => simp [FP.isFinite] at h1

theorem tNewInterval_ordered (bu bv e dxF dyF : FP) (pr Kt : Vec3)
    (h1 : (tNewInterval bu bv e dxF dyF pr Kt).1.isFinite = true)
    (h2 : (tNewInterval bu bv e dxF dyF pr Kt).2.isFinite = true) :
    FP.le (tNewInterval bu bv e dxF dyF pr Kt).1 (tNewInterval bu bv e dxF dyF pr Kt).2 = true := by
  unfold tNewInterval at h1 h2 ⊢
  exact FP.swap_pair_le _ _ h1 h2

/-- C4: a `traceOn` call on a point whose status is already `IPS_OOB` returns
`IPS_OOB` immediately and leaves the point state — in particular
`idepth_min`/`idepth_max` — completely unchanged (ImmaturePoint.cpp:92). -/
theorem traceOn_oob_idempotent (S : Settings) (rsqrt : ℚ → ℚ) (fr : Frame)
    (p : ImmaturePoint) (KRKi : Mat33) (Kt : Vec3) (aff : ℚ × ℚ)
    (h : p.lastTraceStatus = ImmaturePointStatus.IPS_OOB) :
    traceOn S rsqrt fr p KRKi Kt aff = (ImmaturePointStatus.IPS_OOB, p) := by
  unfold traceOn
  rw [if_pos h]

/-- Witness for C4 at a concrete out-of-bounds point. -/
theorem traceOn_oob_idempotent_witness :
    ({ pBase with lastTraceStatus := ImmaturePointStatus.IPS_OOB } :
        ImmaturePoint).lastTraceStatus = ImmaturePointStatus.IPS_OOB ∧
    traceOn S1 rs0 frZero { pBase with lastTraceStatus := ImmaturePointStatus.IPS_OOB }
        MC1 ⟨0, 0, 0⟩ (1, 0)
      = (ImmaturePointStatus.IPS_OOB, { pBase with lastTraceStatus := ImmaturePointStatus.IPS_OOB }) :=
  ⟨rfl, traceOn_oob_idempotent S1 rs0 frZero _ MC1 ⟨0, 0, 0⟩ (1, 0) rfl⟩

/-- C3: a `traceOn` call that reaches the energy-based outlier rejection with
`!(bestEnergy < energyTH * setting_trace_extraSlackOnTH)` clears the last
traced location to the sentinel (-1,-1) and returns `IPS_OOB` if the previous
status was already `IPS_OUTLIER`, otherwise `IPS_OUTLIER`
(ImmaturePoint.cpp:402-416). -/
theorem traceOnEnd_outlier_escalation (S : Settings) (p : ImmaturePoint)
    (bestEnergy : ℚ) (bu bv e dxF dyF : FP) (pr Kt : Vec3)
    (h : FP.lt (FP.fin bestEnergy) (FP.mul p.energyTH (FP.fin S.extraSlackOnTH)) = false) :
    (traceOnEnd S p bestEnergy bu bv e dxF dyF pr Kt).2.lastTraceUV
        = (FP.fin (-1), FP.fin (-1)) ∧
    (if p.lastTraceStatus = ImmaturePointStatus.IPS_OUTLIER then
      (traceOnEnd S p bestEnergy bu bv e dxF dyF pr Kt).1 = ImmaturePointStatus.IPS_OOB ∧
      (traceOnEnd S p bestEnergy bu bv e dxF dyF pr Kt).2.lastTraceStatus
        = ImmaturePointStatus.IPS_OOB
     else
      (traceOnEnd S p bestEnergy bu bv e dxF dyF pr Kt).1 = ImmaturePointStatus.IPS_OUTLIER ∧
      (traceOnEnd S p bestEnergy bu bv e dxF dyF pr Kt).2.lastTraceStatus
        = ImmaturePointStatus.IPS_OUTLIER) := by
  unfold traceOnEnd
  rw [h]
  by_cases hst : p.lastTraceStatus = ImmaturePointStatus.IPS_OUTLIER <;>
    simp [hst]

/-- Witness for C3 at a concrete over-budget energy with a previously-outlier
point (so the escalation branch is exercised). -/
theorem traceOnEnd_outlier_escalation_witness :
    FP.lt (FP.fin 2000)
        (FP.mul ({ pBase with lastTraceStatus := ImmaturePointStatus.IPS_OUTLIER } :
            ImmaturePoint).energyTH (FP.fin S1.extraSlackOnTH)) = false ∧
    (traceOnEnd S1 { pBase with lastTraceStatus := ImmaturePointStatus.IPS_OUTLIER } 2000
        (FP.fin 50) (FP.fin 50) (FP.fin 1) (FP.fin 1) (FP.fin 0) ⟨50, 50, 1⟩
        ⟨1, 0, 0⟩).2.lastTraceUV = (FP.fin (-1), FP.fin (-1)) ∧
    (traceOnEnd S1 { pBase with lastTraceStatus := ImmaturePointStatus.IPS_OUTLIER } 2000
        (FP.fin 50) (FP.fin 50) (FP.fin 1) (FP.fin 1) (FP.fin 0) ⟨50, 50, 1⟩
        ⟨1, 0, 0⟩).1 = ImmaturePointStatus.IPS_OOB := by
  have h := traceOnEnd_outlier_escalation S1
    { pBase with lastTraceStatus := ImmaturePointStatus.IPS_OUTLIER } 2000
    (FP.fin 50) (FP.fin 50) (FP.fin 1) (FP.fin 1) (FP.fin 0) ⟨50, 50, 1⟩ ⟨1, 0, 0⟩ (by with_unfolding_all decide)
  rw [if_pos (by with_unfolding_all decide)] at h
  exact ⟨by with_unfolding_all decide, h.1, h.2.1⟩

/-- C10: a `traceOn` call that passes the outlier-energy check and computes an
interval with a non-finite bound or a negative upper bound returns
`IPS_OUTLIER`, leaving the freshly computed invalid values stored in
`idepth_min`/`idepth_max` — the interval held before the call is not
restored (ImmaturePoint.cpp:420-440). -/
theorem traceOnEnd_invalid_interval_persists (S : Settings) (p : ImmaturePoint)
    (bestEnergy : ℚ) (bu bv e dxF dyF : FP) (pr Kt : Vec3)
    (hpass : FP.lt (FP.fin bestEnergy) (FP.mul p.energyTH (FP.fin S.extraSlackOnTH)) = true)
    (hbad : (!(tNewInterval bu bv e dxF dyF pr Kt).1.isFinite ||
             !(tNewInterval bu bv e dxF dyF pr Kt).2.isFinite ||
             FP.lt (tNewInterval bu bv e dxF dyF pr Kt).2 (FP.fin 0)) = true) :
    (traceOnEnd S p bestEnergy bu bv e dxF dyF pr Kt).1 = ImmaturePointStatus.IPS_OUTLIER ∧
    (traceOnEnd S p bestEnergy bu bv e dxF dyF pr Kt).2.idepth_min
      = (tNewInterval bu bv e dxF dyF pr Kt).1 ∧
    (traceOnEnd S p bestEnergy bu bv e dxF dyF pr Kt).2.idepth_max
      = (tNewInterval bu bv e dxF dyF pr Kt).2 := by
  unfold traceOnEnd
  rw [hpass]
  simp only [Bool.not_true, Bool.false_eq_true, if_false]
  rw [if_pos hbad]
  exact ⟨rfl, rfl, rfl⟩

/-- Witness for C10: zero translation makes both interval denominators zero,
producing a +infinity interval that is stored and reported as outlier. -/
theorem traceOnEnd_invalid_interval_persists_witness :
    FP.lt (FP.fin 0) (FP.mul (pBase.energyTH) (FP.fin S1.extraSlackOnTH)) = true ∧
    (!(tNewInterval (FP.fin 1) (FP.fin 1) (FP.fin 0) (FP.fin 1) (FP.fin 0)
        ⟨0, 0, 1⟩ ⟨0, 0, 0⟩).1.isFinite ||
     !(tNewInterval (FP.fin 1) (FP.fin 1) (FP.fin 0) (FP.fin 1) (FP.fin 0)
        ⟨0, 0, 1⟩ ⟨0, 0, 0⟩).2.isFinite ||
     FP.lt (tNewInterval (FP.fin 1) (FP.fin 1) (FP.fin 0) (FP.fin 1) (FP.fin 0)
        ⟨0, 0, 1⟩ ⟨0, 0, 0⟩).2 (FP.fin 0)) = true ∧
    (traceOnEnd S1 pBase 0 (FP.fin 1) (FP.fin 1) (FP.fin 0) (FP.fin 1) (FP.fin 0)
        ⟨0, 0, 1⟩ ⟨0, 0, 0⟩).1 = ImmaturePointStatus.IPS_OUTLIER ∧
    (traceOnEnd S1 pBase 0 (FP.fin 1) (FP.fin 1) (FP.fin 0) (FP.fin 1) (FP.fin 0)
        ⟨0, 0, 1⟩ ⟨0, 0, 0⟩).2.idepth_min = FP.inf true ∧
    (traceOnEnd S1 pBase 0 (FP.fin 1) (FP.fin 1) (FP.fin 0) (FP.fin 1) (FP.fin 0)
        ⟨0, 0, 1⟩ ⟨0, 0, 0⟩).2.idepth_max = FP.inf true := by
  have h := traceOnEnd_invalid_interval_persists S1 pBase 0 (FP.fin 1) (FP.fin 1) (FP.fin 0)
    (FP.fin 1) (FP.fin 0) ⟨0, 0, 1⟩ ⟨0, 0, 0⟩ (by with_unfolding_all decide) (by with_unfolding_all decide)
  exact ⟨by with_unfolding_all decide, by with_unfolding_all decide, h.1, by rw [h.2.1]; with_unfolding_all decide, by rw [h.2.2]; with_unfolding_all decide⟩

/-- C2 counterexample: concrete `traceOn` inputs whose min-depth projection
passes the border check, with nonnegative `idepth_min` and a min-depth z of 2
(outside (0.75, 1.5)), yet the call returns `IPS_SKIPPED`, not `IPS_OOB`: the
scale rejection sits after the step-2 skipped shortcut, contrary to the
claim. -/
theorem scale_check_after_skip_cex :
    tBorderOK S1 (tUvMin { pBase with idepth_max := FP.fin 0 } MC2 ⟨0, 0, 0⟩) = true ∧
    FP.lt ({ pBase with idepth_max := FP.fin 0 } : ImmaturePoint).idepth_min (FP.fin 0) = false ∧
    (FP.lt (FP.fin (3 / 4)) (tPtpMin { pBase with idepth_max := FP.fin 0 } MC2 ⟨0, 0, 0⟩).2.2 &&
     FP.lt (tPtpMin { pBase with idepth_max := FP.fin 0 } MC2 ⟨0, 0, 0⟩).2.2 (FP.fin (3 / 2))) = false ∧
    (traceOn S1 rs0 frZero { pBase with idepth_max := FP.fin 0 } MC2 ⟨0, 0, 0⟩ (1, 0)).1
      = ImmaturePointStatus.IPS_SKIPPED ∧
    (traceOn S1 rs0 frZero { pBase with idepth_max := FP.fin 0 } MC2 ⟨0, 0, 0⟩ (1, 0)).1
      ≠ ImmaturePointStatus.IPS_OOB := by
  refine ⟨by with_unfolding_all decide, by with_unfolding_all decide, by with_unfolding_all decide, by with_unfolding_all decide, by with_unfolding_all decide⟩

/-- C2 (amended): the degenerate-scale rejection holds for every call that
reaches the scale check, i.e. that has not already returned out-of-bounds at
a border check or skipped at the step-2 tightness shortcut: with
`idepth_min` not negative and the min-depth projection z outside
(0.75, 1.5), the result is out-of-bounds with the failure fields set
(ImmaturePoint.cpp:203-208). -/
theorem traceOnScale_oob_amended (S : Settings) (fr : Frame) (p : ImmaturePoint)
    (aff : ℚ × ℚ) (KRKi : Mat33) (Kt : Vec3) (pr : Vec3)
    (ptpMinZ uMin vMin uMax vMax dist : FP) (maxPixSearch : ℚ)
    (hmin : FP.lt p.idepth_min (FP.fin 0) = false)
    (hz : (FP.lt (FP.fin (3 / 4)) ptpMinZ && FP.lt ptpMinZ (FP.fin (3 / 2))) = false) :
    traceOnScale S fr p aff KRKi Kt pr ptpMinZ uMin vMin uMax vMax dist maxPixSearch
      = tFail p ImmaturePointStatus.IPS_OOB := by
  unfold traceOnScale
  rw [hmin, hz]
  rfl

/-- Witness for C2's amended theorem at a concrete scale-degenerate input. -/
theorem traceOnScale_oob_amended_witness :
    FP.lt pBase.idepth_min (FP.fin 0) = false ∧
    (FP.lt (FP.fin (3 / 4)) (FP.fin 2) && FP.lt (FP.fin 2) (FP.fin (3 / 2))) = false ∧
    traceOnScale S1 frZero pBase (1, 0) MC2 ⟨0, 0, 0⟩ ⟨100, 100, 2⟩ (FP.fin 2)
        (FP.fin 50) (FP.fin 50) (FP.fin 47) (FP.fin 46) (FP.fin 5) 30
      = tFail pBase ImmaturePointStatus.IPS_OOB :=
  ⟨by with_unfolding_all decide, by with_unfolding_all decide,
    traceOnScale_oob_amended S1 frZero pBase (1, 0) MC2 ⟨0, 0, 0⟩ ⟨100, 100, 2⟩
      (FP.fin 2) (FP.fin 50) (FP.fin 50) (FP.fin 47) (FP.fin 46) (FP.fin 5) 30
      (by with_unfolding_all decide) (by with_unfolding_all decide)⟩

theorem calcResLoop_projFail (S : Settings) (fr : Frame) (p : ImmaturePoint)
    (KRKi : Mat33) (Kt : Vec3) (aff : ℚ × ℚ) (idepth : ℚ) :
    ∀ (l : List (Fin 8)) (acc : ℚ),
      (∃ idx ∈ l, (calcProjOK S p KRKi Kt idepth idx).1 = false) →
      calcResLoop S fr p KRKi Kt aff idepth l acc = none := by
  intro l
  induction l with
  | nil =>
    intro acc h
    rcases h with ⟨idx, hm, _⟩
    cases hm
  | cons head rest ih =>
    intro acc h
    unfold calcResLoop
    by_cases hh : (calcProjOK S p KRKi Kt idepth head).1 = false
    · rw [if_pos hh]
    · rw [if_neg hh]
      have hr : ∃ idx ∈ rest, (calcProjOK S p KRKi Kt idepth idx).1 = false := by
        rcases h with ⟨idx, hm, hf⟩
        rcases List.mem_cons.mp hm with he | hm2
        · exact absurd (he ▸ hf) hh
        · exact ⟨idx, hm2, hf⟩
      split
      · exact ih _ hr
      · rfl

/-- C6: whenever the projection of any pattern-offset pixel fails,
`calcResidual` returns the fixed `1e10` penalty, regardless of the other
offsets (ImmaturePoint.cpp:479-485). -/
theorem calcResidual_projFail_penalty (S : Settings) (fr : Frame) (p : ImmaturePoint)
    (KRKi : Mat33) (Kt : Vec3) (aff : ℚ × ℚ) (outlierTHSlack idepth : ℚ)
    (h : ∃ idx : Fin 8, (calcProjOK S p KRKi Kt idepth idx).1 = false) :
    calcResidual S fr p KRKi Kt aff outlierTHSlack idepth = FP.fin 10000000000 := by
  obtain ⟨idx, hidx⟩ := h
  unfold calcResidual
  rw [calcResLoop_projFail S fr p KRKi Kt aff idepth (List.finRange 8) 0
    ⟨idx, List.mem_finRange idx, hidx⟩]

/-- Witness for C6: a point far outside a tiny 20x20 image, whose offsets all
fail to project. -/
theorem calcResidual_projFail_penalty_witness :
    (∃ idx : Fin 8, (calcProjOK S2 { pBase with u := 100, v := 100 } I3 ⟨0, 0, 0⟩ 0 idx).1 = false) ∧
    calcResidual S2 frZero { pBase with u := 100, v := 100 } I3 ⟨0, 0, 0⟩ (1, 0) (6 / 5) 0
      = FP.fin 10000000000 :=
  ⟨by with_unfolding_all decide,
   calcResidual_projFail_penalty S2 frZero { pBase with u := 100, v := 100 } I3 ⟨0, 0, 0⟩
     (1, 0) (6 / 5) 0 (by with_unfolding_all decide)⟩

theorem linLoop_oob_return (S : Settings) (C : Calib) (fr : Frame) (p : ImmaturePoint)
    (R : Mat33) (t : Vec3) (aff : ℚ × ℚ) (outlierTHSlack : ℚ) (tmp : TmpRes) (idepth : ℚ) :
    ∀ (l : List (Fin 8)) (eAcc : ℚ) (H b : FP),
      (linLoop S C fr p R t aff outlierTHSlack tmp idepth l eAcc H b).newState = ResState.OOB →
      (linLoop S C fr p R t aff outlierTHSlack tmp idepth l eAcc H b).ret = tmp.state_energy ∧
      (linLoop S C fr p R t aff outlierTHSlack tmp idepth l eAcc H b).newEnergy
        = tmp.state_NewEnergy := by
  intro l
  induction l with
  | nil =>
    intro eAcc H b h
    unfold linLoop at h ⊢
    split at h <;> simp_all
  | cons head rest ih =>
    intro eAcc H b h
    unfold linLoop at h ⊢
    by_cases hh : (projectPointFull S C p.u p.v idepth (patternP head).1 (patternP head).2 R t).ok = false
    · rw [if_pos hh] at h ⊢
      exact ⟨rfl, rfl⟩
    · rw [if_neg hh] at h ⊢
      dsimp only at h ⊢
      split at h
      · exact ih _ _ _ h
      · exact ⟨rfl, rfl⟩

/-- C5 (amended): when the projection of some pattern offset fails (or its
sampled intensity is non-finite), `linearizeResidual` marks the pending state
out-of-bounds, returns the previously stored energy unchanged and does not
update the pending energy; however the accumulated output scalars `Hdd` and
`bd` keep the contributions already added for the offsets processed before
the failure — they are not restored to their incoming values
(ImmaturePoint.cpp:541-545, 552-555, 574-575). -/
theorem linearizeResidual_oob_return (S : Settings) (C : Calib) (fr : Frame)
    (p : ImmaturePoint) (R : Mat33) (t : Vec3) (aff : ℚ × ℚ) (outlierTHSlack : ℚ)
    (tmp : TmpRes) (Hdd0 bd0 : FP) (idepth : ℚ)
    (h1 : tmp.state_state ≠ ResState.OOB)
    (h2 : (linearizeResidual S C fr p R t aff outlierTHSlack tmp Hdd0 bd0 idepth).newState
      = ResState.OOB) :
    (linearizeResidual S C fr p R t aff outlierTHSlack tmp Hdd0 bd0 idepth).ret
      = tmp.state_energy ∧
    (linearizeResidual S C fr p R t aff outlierTHSlack tmp Hdd0 bd0 idepth).newEnergy
      = tmp.state_NewEnergy := by
  unfold linearizeResidual at h2 ⊢
  rw [if_neg h1] at h2 ⊢
  exact linLoop_oob_return S C fr p R t aff outlierTHSlack tmp idepth _ _ _ _ h2

/-- C5 counterexample: pattern offset 0 projects and samples fine,
contributing to `Hdd`, then offset 1 samples a non-finite intensity; the call
returns the stored energy with pending state out-of-bounds, but `Hdd` has
moved from its incoming value 0 to 1 — the partial update is visible. -/
theorem linearizeResidual_partial_cex :
    (linearizeResidual S2 calib1 fr5 p5 I3 ⟨1, 0, 0⟩ (1, 0) (6 / 5) tmp5
        (FP.fin 0) (FP.fin 0) 0).newState = ResState.OOB ∧
    (linearizeResidual S2 calib1 fr5 p5 I3 ⟨1, 0, 0⟩ (1, 0) (6 / 5) tmp5
        (FP.fin 0) (FP.fin 0) 0).ret = FP.fin 7 ∧
    ¬ ((linearizeResidual S2 calib1 fr5 p5 I3 ⟨1, 0, 0⟩ (1, 0) (6 / 5) tmp5
        (FP.fin 0) (FP.fin 0) 0).Hdd = FP.fin 0) := by
  refine ⟨?_, ?_, ?_⟩ <;> with_unfolding_all decide

/-- Witness for C5's amended theorem at the same failing configuration. -/
theorem linearizeResidual_oob_return_witness :
    tmp5.state_state ≠ ResState.OOB ∧
    (linearizeResidual S2 calib1 fr5 p5 I3 ⟨1, 0, 0⟩ (1, 0) (6 / 5) tmp5
        (FP.fin 1) (FP.fin 1) 0).newState = ResState.OOB ∧
    (linearizeResidual S2 calib1 fr5 p5 I3 ⟨1, 0, 0⟩ (1, 0) (6 / 5) tmp5
        (FP.fin 1) (FP.fin 1) 0).ret = tmp5.state_energy ∧
    (linearizeResidual S2 calib1 fr5 p5 I3 ⟨1, 0, 0⟩ (1, 0) (6 / 5) tmp5
        (FP.fin 1) (FP.fin 1) 0).newEnergy = tmp5.state_NewEnergy :=
  ⟨by with_unfolding_all decide, by with_unfolding_all decide,
   linearizeResidual_oob_return S2 calib1 fr5 p5 I3 ⟨1, 0, 0⟩ (1, 0) (6 / 5) tmp5
     (FP.fin 1) (FP.fin 1) 0 (by with_unfolding_all decide) (by with_unfolding_all decide)⟩

/-- C8: `calcResidual` is deterministic and mutates no state: two calls with
equal point state, equal frame data and equal arguments return the same
energy, and the point and the candidate residual are unchanged afterwards
(ImmaturePoint.cpp:467-498 writes no member). -/
theorem calcResidual_deterministic_pure (S : Settings) (fr : Frame)
    (p p2 : ImmaturePoint) (KRKi : Mat33) (Kt : Vec3) (aff : ℚ × ℚ)
    (outlierTHSlack idepth : ℚ) (tmp tmp2 : TmpRes)
    (hp : p2 = p) (ht : tmp2 = tmp) :
    calcResidualS S fr p2 KRKi Kt aff outlierTHSlack idepth tmp2
      = calcResidualS S fr p KRKi Kt aff outlierTHSlack idepth tmp ∧
    (calcResidualS S fr p KRKi Kt aff outlierTHSlack idepth tmp).2.1 = p ∧
    (calcResidualS S fr p KRKi Kt aff outlierTHSlack idepth tmp).2.2 = tmp := by
  subst hp
  subst ht
  exact ⟨rfl, rfl, rfl⟩

/-- Witness for C8 at a concrete configuration. -/
theorem calcResidual_deterministic_pure_witness :
    calcResidualS S2 frZero p5 I3 ⟨1, 0, 0⟩ (1, 0) (6 / 5) 0 tmp5
      = calcResidualS S2 frZero p5 I3 ⟨1, 0, 0⟩ (1, 0) (6 / 5) 0 tmp5 ∧
    (calcResidualS S2 frZero p5 I3 ⟨1, 0, 0⟩ (1, 0) (6 / 5) 0 tmp5).2.1 = p5 ∧
    (calcResidualS S2 frZero p5 I3 ⟨1, 0, 0⟩ (1, 0) (6 / 5) 0 tmp5).2.2 = tmp5 :=
  calcResidual_deterministic_pure S2 frZero p5 p5 I3 ⟨1, 0, 0⟩ (1, 0) (6 / 5) 0 tmp5 tmp5 rfl rfl

/-- C9 counterexample: `getdPixdd` does not always return a positive scalar.
With zero translation the result is exactly 0; with a hypothesized depth
behind the camera (the projection's ignored failure flag set) the result is
negative. -/
theorem getdPixdd_not_positive_cex :
    FP.lt (FP.fin 0) (getdPixdd S2 calib1 rs9 p5 I3 ⟨0, 0, 0⟩ 0) = false ∧
    FP.lt (getdPixdd S2 calib1 rs9 p5 I3 ⟨3, 0, -1⟩ 2) (FP.fin 0) = true := by
  constructor <;> with_unfolding_all decide

/-- C9 (amended): `getdPixdd` returns a single nonnegative scalar whenever
the projected depth at the hypothesized inverse depth is positive (zero is
possible, e.g. for zero translation), and it mutates no state of the point or
the candidate residual (ImmaturePoint.cpp:448-464).  `hrs` states that the
external `sqrtf` is nonnegative on nonnegative arguments. -/
theorem getdPixdd_nonneg (S : Settings) (C : Calib) (rsqrt : ℚ → ℚ)
    (p : ImmaturePoint) (R : Mat33) (t : Vec3) (idepth : ℚ)
    (hz : 0 < projZ C p.u p.v idepth 0 0 R t)
    (hrs : ∀ q : ℚ, 0 ≤ q → 0 ≤ rsqrt q) :
    FP.le (FP.fin 0) (getdPixdd S C rsqrt p R t idepth) = true ∧
    (∀ tmp : TmpRes, getdPixddS S C rsqrt p R t idepth tmp
        = (getdPixdd S C rsqrt p R t idepth, p, tmp)) := by
  refine ⟨?_, fun tmp => rfl⟩
  have hz0 : projZ C p.u p.v idepth 0 0 R t ≠ 0 := ne_of_gt hz
  have hinv : (0 : ℚ) < 1 / projZ C p.u p.v idepth 0 0 R t := by positivity
  unfold getdPixdd projectPointFull
  dsimp only
  rw [FP.div_fin, if_neg hz0]
  rw [if_neg (by simp [FP.lt_fin, hinv, hz])]
  dsimp only
  simp only [FP.mul_fin, FP.sub_fin, FP.add_fin]
  rw [FP.sqrt_fin]
  rw [if_neg (not_lt.mpr (add_nonneg (mul_self_nonneg _) (mul_self_nonneg _)))]
  rw [FP.mul_fin]
  exact FP.le_fin_fin
    (mul_nonneg hinv.le (hrs _ (add_nonneg (mul_self_nonneg _) (mul_self_nonneg _))))

/-- Witness for C9's amended theorem at a concrete in-front projection. -/
theorem getdPixdd_nonneg_witness :
    0 < projZ calib1 p5.u p5.v 0 0 0 I3 ⟨0, 0, 0⟩ ∧
    FP.le (FP.fin 0) (getdPixdd S2 calib1 rs0 p5 I3 ⟨0, 0, 0⟩ 0) = true ∧
    getdPixddS S2 calib1 rs0 p5 I3 ⟨0, 0, 0⟩ 0 tmp5
      = (getdPixdd S2 calib1 rs0 p5 I3 ⟨0, 0, 0⟩ 0, p5, tmp5) := by
  have h := getdPixdd_nonneg S2 calib1 rs0 p5 I3 ⟨0, 0, 0⟩ 0
    (by with_unfolding_all decide) (fun q _ => le_refl 0)
  exact ⟨by with_unfolding_all decide, h.1, h.2 tmp5⟩

theorem traceOnEnd_good_aux (S : Settings) (p : ImmaturePoint) (be : ℚ)
    (bu bv e dxF dyF : FP) (pr Kt : Vec3) (r : ImmaturePointStatus × ImmaturePoint)
    (hr : traceOnEnd S p be bu bv e dxF dyF pr Kt = r)
    (h : r.1 = ImmaturePointStatus.IPS_GOOD) : intervalOK r.2 := by
  unfold traceOnEnd at hr
  split at hr
  · split at hr <;> (subst hr; simp at h)
  · dsimp only at hr
    split at hr
    · subst hr; simp at h
    · next hg =>
      subst hr
      have hg2 : (!(tNewInterval bu bv e dxF dyF pr Kt).1.isFinite ||
                  !(tNewInterval bu bv e dxF dyF pr Kt).2.isFinite ||
                  FP.lt (tNewInterval bu bv e dxF dyF pr Kt).2 (FP.fin 0)) = false := by
        simpa using hg
      simp only [Bool.or_eq_false_iff, Bool.not_eq_false'] at hg2
      obtain ⟨⟨hf1, hf2⟩, hneg⟩ := hg2
      exact ⟨hf1, hf2, tNewInterval_ordered bu bv e dxF dyF pr Kt hf1 hf2,
        FP.le_zero_of_finite_not_neg hf2 hneg⟩

theorem traceOnSearch_good_aux (S : Settings) (fr : Frame) (p : ImmaturePoint)
    (aff : ℚ × ℚ) (rot : Fin 8 → ℚ × ℚ) (numSteps : ℤ) (ptx pty dxF dyF e : FP)
    (pr Kt : Vec3) (r : ImmaturePointStatus × ImmaturePoint)
    (hr : traceOnSearch S fr p aff rot numSteps ptx pty dxF dyF e pr Kt = r)
    (h : r.1 = ImmaturePointStatus.IPS_GOOD) : intervalOK r.2 := by
  unfold traceOnSearch at hr
  exact traceOnEnd_good_aux _ _ _ _ _ _ _ _ _ _ _ hr h

theorem traceOnScale_good_aux (S : Settings) (fr : Frame) (p : ImmaturePoint)
    (aff : ℚ × ℚ) (KRKi : Mat33) (Kt : Vec3) (pr : Vec3)
    (ptpMinZ uMin vMin uMax vMax dist : FP) (maxPixSearch : ℚ)
    (r : ImmaturePointStatus × ImmaturePoint)
    (hr : traceOnScale S fr p aff KRKi Kt pr ptpMinZ uMin vMin uMax vMax dist maxPixSearch = r)
    (h : r.1 = ImmaturePointStatus.IPS_GOOD) : intervalOK r.2 := by
  unfold traceOnScale at hr
  split at hr
  · subst hr; simp [tFail] at h
  · dsimp only at hr
    split at hr
    · subst hr; simp at h
    · split at hr
      · subst hr; simp [tFail] at h
      · exact traceOnSearch_good_aux _ _ _ _ _ _ _ _ _ _ _ _ _ _ hr h

/-- C1: every `traceOn` call that returns `IPS_GOOD` leaves the point with a
finite, ordered inverse-depth interval whose upper bound is nonnegative
(ImmaturePoint.cpp:420-444: the swap at line 431 orders the bounds and the
check at line 434 rejects non-finite bounds and negative upper bounds before
`IPS_GOOD` is returned). -/
theorem traceOn_good_interval (S : Settings) (rsqrt : ℚ → ℚ) (fr : Frame)
    (p : ImmaturePoint) (KRKi : Mat33) (Kt : Vec3) (aff : ℚ × ℚ)
    (h : (traceOn S rsqrt fr p KRKi Kt aff).1 = ImmaturePointStatus.IPS_GOOD) :
    intervalOK (traceOn S rsqrt fr p KRKi Kt aff).2 := by
  rcases hE : traceOn S rsqrt fr p KRKi Kt aff with ⟨st, pOut⟩
  rw [hE] at h
  unfold traceOn at hE
  split at hE
  · rw [← hE] at h; simp at h
  · dsimp only at hE
    split at hE
    · rw [← hE] at h; simp [tFail] at h
    · split at hE
      · split at hE
        · rw [← hE] at h; simp [tFail] at h
        · split at hE
          · rw [← hE] at h; simp at h
          · exact traceOnScale_good_aux _ _ _ _ _ _ _ _ _ _ _ _ _ _ _ hE h
      · split at hE
        · rw [← hE] at h; simp [tFail] at h
        · exact traceOnScale_good_aux _ _ _ _ _ _ _ _ _ _ _ _ _ _ _ hE h

/-- Witness for C1: a concrete trace that ends in `IPS_GOOD` (finite interval
[0, 1], endpoints 5 pixels apart, flat image, no GN iterations). -/
theorem traceOn_good_interval_witness :
    (traceOn S0 rs25 frZero { pBase with idepth_max := FP.fin 1 } MC1 ⟨-3, -4, 0⟩ (1, 0)).1
      = ImmaturePointStatus.IPS_GOOD ∧
    intervalOK (traceOn S0 rs25 frZero { pBase with idepth_max := FP.fin 1 } MC1
      ⟨-3, -4, 0⟩ (1, 0)).2 :=
  ⟨by with_unfolding_all decide,
   traceOn_good_interval S0 rs25 frZero { pBase with idepth_max := FP.fin 1 } MC1
     ⟨-3, -4, 0⟩ (1, 0) (by with_unfolding_all decide)⟩

theorem huber_term_nonneg (TH r : ℚ) (h : 0 < TH) :
    0 ≤ huberW TH r * r * r * (2 - huberW TH r) := by
  unfold huberW
  split
  · have heq : (1 : ℚ) * r * r * (2 - 1) = r * r := by ring
    rw [heq]
    exact mul_self_nonneg r
  · next hge =>
    have h1 : TH ≤ |r| := not_lt.mp hge
    have h2 : (0 : ℚ) < |r| := lt_of_lt_of_le h h1
    have hw0 : 0 < TH / |r| := div_pos h h2
    have hw1 : TH / |r| ≤ 1 := (div_le_one h2).mpr h1
    have key : 0 ≤ TH / |r| * (r * r) * (2 - TH / |r|) :=
      mul_nonneg (mul_nonneg hw0.le (mul_self_nonneg r)) (by linarith)
    have heq : TH / |r| * r * r * (2 - TH / |r|) = TH / |r| * (r * r) * (2 - TH / |r|) := by
      ring
    rw [heq]
    exact key

theorem foldl_rat_nonneg {α : Type} (f : ℚ → α → ℚ) (hf : ∀ (e : ℚ) (x : α), 0 ≤ e → 0 ≤ f e x) :
    ∀ (l : List α) (e0 : ℚ), 0 ≤ e0 → 0 ≤ List.foldl f e0 l := by
  intro l
  induction l with
  | nil => intro e0 h0; simpa using h0
  | cons a rest ih =>
    intro e0 h0
    rw [List.foldl_cons]
    exact ih _ (hf e0 a h0)

theorem stepEnergy_nonneg (S : Settings) (fr : Frame) (p : ImmaturePoint)
    (aff : ℚ × ℚ) (rot : Fin 8 → ℚ × ℚ) (px py : FP) (h : 0 < S.huberTH) :
    0 ≤ stepEnergy S fr p aff rot px py := by
  unfold stepEnergy
  apply foldl_rat_nonneg _ _ _ _ le_rfl
  intro e idx he
  split
  · exact add_nonneg he (huber_term_nonneg S.huberTH _ h)
  · exact add_nonneg he (by norm_num)

theorem tErrors_nonneg (S : Settings) (fr : Frame) (p : ImmaturePoint)
    (aff : ℚ × ℚ) (rot : Fin 8 → ℚ × ℚ) (numSteps : ℤ) (ptx pty dxF dyF : FP)
    (h : 0 < S.huberTH) :
    ∀ x ∈ tErrors S fr p aff rot numSteps ptx pty dxF dyF, 0 ≤ x := by
  intro x hx
  unfold tErrors at hx
  obtain ⟨i, _, rfl⟩ := List.mem_map.mp hx
  exact stepEnergy_nonneg S fr p aff rot _ _ h

theorem tBestGo_nonneg (ptx pty dxF dyF : FP) :
    ∀ (l : List ℚ) (i : ℕ) (best : FP × FP × ℚ × ℤ),
      (∀ x ∈ l, 0 ≤ x) → 0 ≤ best.2.2.1 →
      0 ≤ (tBestGo ptx pty dxF dyF l i best).2.2.1 := by
  intro l
  induction l with
  | nil =>
    intro i best hl hb
    exact hb
  | cons a rest ih =>
    intro i best hl hb
    unfold tBestGo
    apply ih
    · intro x hx
      exact hl x (List.mem_cons_of_mem _ hx)
    · split
      · exact hl a (List.mem_cons_self _ _)
      · exact hb

theorem tSecondBestGo_nonneg (S : Settings) (bestIdx : ℤ) :
    ∀ (l : List ℚ) (i : ℕ) (sb : ℚ),
      (∀ x ∈ l, 0 ≤ x) → 0 ≤ sb →
      0 ≤ tSecondBestGo S bestIdx l i sb := by
  intro l
  induction l with
  | nil =>
    intro i sb hl hb
    exact hb
  | cons a rest ih =>
    intro i sb hl hb
    unfold tSecondBestGo
    apply ih
    · intro x hx
      exact hl x (List.mem_cons_of_mem _ hx)
    · split
      · exact hl a (List.mem_cons_self _ _)
      · exact hb

theorem tNewQuality_not_neg (S : Settings) (fr : Frame) (p : ImmaturePoint)
    (aff : ℚ × ℚ) (rot : Fin 8 → ℚ × ℚ) (numSteps : ℤ) (ptx pty dxF dyF : FP)
    (h : 0 < S.huberTH) :
    FP.lt (tNewQuality S fr p aff rot numSteps ptx pty dxF dyF) (FP.fin 0) = false := by
  unfold tNewQuality
  dsimp only
  apply FP.div_nonneg_not_neg
  · unfold tSecondBest
    exact tSecondBestGo_nonneg S _ _ 0 _
      (tErrors_nonneg S fr p aff rot numSteps ptx pty dxF dyF h) (by norm_num)
  · unfold tBest
    exact tBestGo_nonneg ptx pty dxF dyF _ 0 _
      (tErrors_nonneg S fr p aff rot numSteps ptx pty dxF dyF h) (by norm_num)

theorem tQualityUpdate_not_neg {q nq : FP} {n : ℤ} (hq : FP.lt q (FP.fin 0) = false)
    (hnq : FP.lt nq (FP.fin 0) = false) :
    FP.lt (tQualityUpdate q nq n) (FP.fin 0) = false := by
  unfold tQualityUpdate
  split <;> assumption

theorem traceOnEnd_quality (S : Settings) (p : ImmaturePoint) (be : ℚ)
    (bu bv e dxF dyF : FP) (pr Kt : Vec3) :
    (traceOnEnd S p be bu bv e dxF dyF pr Kt).2.quality = p.quality := by
  unfold traceOnEnd
  split
  · split <;> rfl
  · dsimp only
    split <;> rfl

theorem traceOnSearch_quality (S : Settings) (fr : Frame) (p : ImmaturePoint)
    (aff : ℚ × ℚ) (rot : Fin 8 → ℚ × ℚ) (numSteps : ℤ) (ptx pty dxF dyF e : FP)
    (pr Kt : Vec3) :
    (traceOnSearch S fr p aff rot numSteps ptx pty dxF dyF e pr Kt).2.quality
      = tQualityUpdate p.quality (tNewQuality S fr p aff rot numSteps ptx pty dxF dyF)
          numSteps := by
  unfold traceOnSearch
  dsimp only
  rw [traceOnEnd_quality]

theorem traceOnScale_quality_preserved (S : Settings) (fr : Frame) (p : ImmaturePoint)
    (aff : ℚ × ℚ) (KRKi : Mat33) (Kt : Vec3) (pr : Vec3)
    (ptpMinZ uMin vMin uMax vMax dist : FP) (maxPixSearch : ℚ)
    (hTH : 0 < S.huberTH) (hq : FP.lt p.quality (FP.fin 0) = false)
    (r : ImmaturePointStatus × ImmaturePoint)
    (hr : traceOnScale S fr p aff KRKi Kt pr ptpMinZ uMin vMin uMax vMax dist maxPixSearch = r) :
    FP.lt r.2.quality (FP.fin 0) = false := by
  unfold traceOnScale at hr
  split at hr
  · rw [← hr]
    simpa [tFail] using hq
  · dsimp only at hr
    split at hr
    · rw [← hr]
      exact hq
    · split at hr
      · rw [← hr]
        simpa [tFail] using hq
      · rw [← hr, traceOnSearch_quality]
        exact tQualityUpdate_not_neg hq (tNewQuality_not_neg S fr p aff _ _ _ _ _ _ hTH)

theorem traceOn_quality_preserved (S : Settings) (rsqrt : ℚ → ℚ) (fr : Frame)
    (p : ImmaturePoint) (KRKi : Mat33) (Kt : Vec3) (aff : ℚ × ℚ)
    (hTH : 0 < S.huberTH) (hq : FP.lt p.quality (FP.fin 0) = false) :
    FP.lt (traceOn S rsqrt fr p KRKi Kt aff).2.quality (FP.fin 0) = false := by
  rcases hE : traceOn S rsqrt fr p KRKi Kt aff with ⟨st, pOut⟩
  unfold traceOn at hE
  split at hE
  · rw [← hE]
    exact hq
  · dsimp only at hE
    split at hE
    · rw [← hE]
      simpa [tFail] using hq
    · split at hE
      · split at hE
        · rw [← hE]
          simpa [tFail] using hq
        · split at hE
          · rw [← hE]
            exact hq
          · exact traceOnScale_quality_preserved _ _ _ _ _ _ _ _ _ _ _ _ _ _ hTH hq _ hE
      · split at hE
        · rw [← hE]
          simpa [tFail] using hq
        · exact traceOnScale_quality_preserved _ _ _ _ _ _ _ _ _ _ _ _ _ _ hTH hq _ hE

/-- C7: the quality ratio never becomes negative, and a `traceOn` call that
reaches the search updates `quality` exactly by the rule of
ImmaturePoint.cpp:331-332 — the newly computed `secondBest/bestEnergy` ratio
is stored only when it is lower than the stored quality or when the discrete
step count of the call exceeds the hard cap of 10 (`tQualityUpdate` spells
that rule); every early-exit path leaves `quality` unchanged, so across every
sequence of calls a never-negative quality stays never-negative (stated in
the IEEE sense: `quality < 0` never compares true). -/
theorem traceOn_quality_claim :
    (∀ (S : Settings) (fr : Frame) (p : ImmaturePoint) (aff : ℚ × ℚ)
        (rot : Fin 8 → ℚ × ℚ) (numSteps : ℤ) (ptx pty dxF dyF e : FP) (pr Kt : Vec3),
        0 < S.huberTH →
        (traceOnSearch S fr p aff rot numSteps ptx pty dxF dyF e pr Kt).2.quality
          = tQualityUpdate p.quality
              (tNewQuality S fr p aff rot numSteps ptx pty dxF dyF) numSteps ∧
        FP.lt (tNewQuality S fr p aff rot numSteps ptx pty dxF dyF) (FP.fin 0) = false) ∧
    (∀ (S : Settings) (rsqrt : ℚ → ℚ) (fr : Frame) (p : ImmaturePoint)
        (KRKi : Mat33) (Kt : Vec3) (aff : ℚ × ℚ),
        0 < S.huberTH → FP.lt p.quality (FP.fin 0) = false →
        FP.lt (traceOn S rsqrt fr p KRKi Kt aff).2.quality (FP.fin 0) = false) :=
  ⟨fun S fr p aff rot numSteps ptx pty dxF dyF e pr Kt hTH =>
    ⟨traceOnSearch_quality S fr p aff rot numSteps ptx pty dxF dyF e pr Kt,
     tNewQuality_not_neg S fr p aff rot numSteps ptx pty dxF dyF hTH⟩,
   fun S rsqrt fr p KRKi Kt aff hTH hq =>
    traceOn_quality_preserved S rsqrt fr p KRKi Kt aff hTH hq⟩

/-- Witness for C7: both parts applied at concrete inputs (an empty search on
one side, a full call on a flat image on the other). -/
theorem traceOn_quality_claim_witness :
    (0 : ℚ) < S1.huberTH ∧
    FP.lt pBase.quality (FP.fin 0) = false ∧
    (traceOnSearch S1 frZero pBase (1, 0) (fun _ => (0, 0)) 0 (FP.fin 0) (FP.fin 0)
        (FP.fin 1) (FP.fin 0) (FP.fin 1) ⟨0, 0, 1⟩ ⟨0, 0, 0⟩).2.quality
      = tQualityUpdate pBase.quality
          (tNewQuality S1 frZero pBase (1, 0) (fun _ => (0, 0)) 0 (FP.fin 0) (FP.fin 0)
            (FP.fin 1) (FP.fin 0)) 0 ∧
    FP.lt (traceOn S1 rs25 frZero { pBase with idepth_max := FP.fin 1 } MC1
        ⟨-3, -4, 0⟩ (1, 0)).2.quality (FP.fin 0) = false :=
  ⟨by with_unfolding_all decide, by with_unfolding_all decide,
   (traceOn_quality_claim.1 S1 frZero pBase (1, 0) (fun _ => (0, 0)) 0 (FP.fin 0) (FP.fin 0)
      (FP.fin 1) (FP.fin 0) (FP.fin 1) ⟨0, 0, 1⟩ ⟨0, 0, 0⟩ (by with_unfolding_all decide)).1,
   traceOn_quality_claim.2 S1 rs25 frZero { pBase with idepth_max := FP.fin 1 } MC1
     ⟨-3, -4, 0⟩ (1, 0) (by with_unfolding_all decide) (by with_unfolding_all decide)⟩

end DSO
